import Mathlib

/-!
Verification of the `projectboard-mcp` repository (Go): the TaskBoard HTTP
client (`internal/taskboard/client.go`), the MCP dispatcher
(`internal/mcp/server.go`) and the stdio transport loop (`main.go`).

Modelling conventions:

* Values decoded by Go `encoding/json` into dynamic (`interface`) values are
  modelled by the inductive `Json`.  Numbers are modelled by `Int`: every
  property under verification involves only integral numeric values, so the
  fractional part of Go's float64 is parsed for validity but its value is
  modelled by the integral part.
* The remote HTTP service is modelled as an oracle `Net : HttpReq → NetResult`
  covering both transport-level failures and HTTP responses.  Every client
  operation returns its Go return value (`Except` for a Go `(T, error)` pair)
  together with the list of HTTP requests it issued, in order.
* Go maps built by JSON decoding are modelled as association lists in document
  order; Go's last-duplicate-wins map semantics is modelled by looking up the
  last binding of a key.
-/

set_option maxRecDepth 100000

namespace ProjectboardMCP

/-- JSON values as decoded by Go `encoding/json` into dynamic values. -/
inductive Json where
  | null : Json
  | bool : Bool → Json
  | num : Int → Json
  | str : String → Json
  | arr : List Json → Json
  | obj : List (String × Json) → Json
  deriving Repr, Inhabited

/-- Whitespace characters skipped by the JSON scanner. -/
def isJsonWs (c : Char) : Bool :=
  c = ' ' || c = '\t' || c = '\n' || c = '\r'

/-- Skip leading JSON whitespace. -/
def skipWs : List Char → List Char
  | [] => []
  | c :: cs => if isJsonWs c then skipWs cs else c :: cs

/-- Value of a hexadecimal digit. -/
def hexVal (c : Char) : Option Nat :=
  if '0' ≤ c ∧ c ≤ '9' then some (c.toNat - '0'.toNat)
  else if 'a' ≤ c ∧ c ≤ 'f' then some (c.toNat - 'a'.toNat + 10)
  else if 'A' ≤ c ∧ c ≤ 'F' then some (c.toNat - 'A'.toNat + 10)
  else none

/-- Single-character JSON string escapes. -/
def escChar : Char → Option Char
  | '"' => some '"'
  | '\\' => some '\\'
  | '/' => some '/'
  | 'b' => some (Char.ofNat 8)
  | 'f' => some (Char.ofNat 12)
  | 'n' => some '\n'
  | 'r' => some '\r'
  | 't' => some '\t'
  | _ => none

/-- Parse the body of a JSON string after the opening quote, returning the
decoded characters and the input following the closing quote. -/
def parseStringBody : List Char → Option (List Char × List Char)
  | [] => none
  | '"' :: cs => some ([], cs)
  | '\\' :: 'u' :: h1 :: h2 :: h3 :: h4 :: cs =>
    match hexVal h1, hexVal h2, hexVal h3, hexVal h4 with
    | some a, some b, some c, some d =>
      (parseStringBody cs).map
        (fun p => (Char.ofNat (((a * 16 + b) * 16 + c) * 16 + d) :: p.1, p.2))
    | _, _, _, _ => none
  | '\\' :: e :: cs =>
    match escChar e with
    | some c => (parseStringBody cs).map (fun p => (c :: p.1, p.2))
    | none => none
  | c :: cs =>
    if c.toNat < 32 then none
    else (parseStringBody cs).map (fun p => (c :: p.1, p.2))

/-- Take a maximal run of decimal digits. -/
def takeDigits : List Char → List Char × List Char
  | [] => ([], [])
  | c :: cs =>
    if c.isDigit then
      let p := takeDigits cs
      (c :: p.1, p.2)
    else ([], c :: cs)

/-- Numeric value of a digit run. -/
def digitsToNat (ds : List Char) : Nat :=
  ds.foldl (fun n c => n * 10 + (c.toNat - 48)) 0

/-- Consume an optional JSON fraction part, for validity only. -/
def parseFrac : List Char → Option (List Char)
  | '.' :: cs =>
    let p := takeDigits cs
    if p.1.isEmpty then none else some p.2
  | cs => some cs

/-- Consume an optional JSON exponent part, for validity only. -/
def parseExp : List Char → Option (List Char)
  | c :: cs =>
    if c = 'e' ∨ c = 'E' then
      let cs1 := match cs with
        | s :: cs2 => if s = '+' ∨ s = '-' then cs2 else s :: cs2
        | [] => []
      let p := takeDigits cs1
      if p.1.isEmpty then none else some p.2
    else some (c :: cs)
  | [] => some []

/-- Parse a JSON number.  The fraction and exponent are checked for validity;
the modelled value is the (signed) integral part. -/
def parseNumber (cs : List Char) : Option (Json × List Char) :=
  let sp : Bool × List Char :=
    match cs with
    | '-' :: rest => (true, rest)
    | rest => (false, rest)
  let p := takeDigits sp.2
  match p.1 with
  | [] => none
  | d :: ds =>
    if d = '0' ∧ ds ≠ [] then none
    else
      match parseFrac p.2 with
      | none => none
      | some cs2 =>
        match parseExp cs2 with
        | none => none
        | some cs3 =>
          let n : Int := Int.ofNat (digitsToNat p.1)
          some (.num (if sp.1 then -n else n), cs3)

mutual

/-- Parse a JSON value (fuelled recursive descent). -/
def parseValue : Nat → List Char → Option (Json × List Char)
  | 0, _ => none
  | fuel + 1, cs =>
    match skipWs cs with
    | 'n' :: 'u' :: 'l' :: 'l' :: rest => some (.null, rest)
    | 't' :: 'r' :: 'u' :: 'e' :: rest => some (.bool true, rest)
    | 'f' :: 'a' :: 'l' :: 's' :: 'e' :: rest => some (.bool false, rest)
    | '"' :: rest => (parseStringBody rest).map (fun p => (.str (String.mk p.1), p.2))
    | '[' :: rest =>
      (match skipWs rest with
       | ']' :: rest1 => some (.arr [], rest1)
       | rest1 => (parseElems fuel rest1).map (fun p => (.arr p.1, p.2)))
    | '\x7b' :: rest =>
      (match skipWs rest with
       | '\x7d' :: rest1 => some (.obj [], rest1)
       | rest1 => (parseMembers fuel rest1).map (fun p => (.obj p.1, p.2)))
    | c :: rest =>
      if c = '-' ∨ c.isDigit then parseNumber (c :: rest) else none
    | [] => none

/-- Parse the elements of a non-empty JSON array, up to the closing bracket. -/
def parseElems : Nat → List Char → Option (List Json × List Char)
  | 0, _ => none
  | fuel + 1, cs =>
    match parseValue fuel cs with
    | none => none
    | some (v, rest) =>
      match skipWs rest with
      | ',' :: rest1 => (parseElems fuel rest1).map (fun p => (v :: p.1, p.2))
      | ']' :: rest1 => some ([v], rest1)
      | _ => none

/-- Parse the members of a non-empty JSON object, up to the closing brace. -/
def parseMembers : Nat → List Char → Option (List (String × Json) × List Char)
  | 0, _ => none
  | fuel + 1, cs =>
    match skipWs cs with
    | '"' :: rest =>
      match parseStringBody rest with
      | none => none
      | some (key, rest1) =>
        match skipWs rest1 with
        | ':' :: rest2 =>
          match parseValue fuel rest2 with
          | none => none
          | some (v, rest3) =>
            match skipWs rest3 with
            | ',' :: rest4 =>
              (parseMembers fuel rest4).map (fun p => ((String.mk key, v) :: p.1, p.2))
            | '\x7d' :: rest4 => some ([(String.mk key, v)], rest4)
            | _ => none
        | _ => none
    | _ => none

end

/-- Parse a complete JSON document, Go `encoding/json` style: one value,
optionally surrounded by whitespace, nothing after it.  `none` models a
`json.Unmarshal` syntax error. -/
def parseJson (s : String) : Option Json :=
  match parseValue (2 * s.length + 8) s.data with
  | some (v, rest) => if skipWs rest = [] then some v else none
  | none => none

/-! ### Go JSON decoding into the typed structs of `client.go` -/

/-- Binding of a key in a decoded JSON object, Go map style: the last
duplicate wins. -/
def lookupField (fields : List (String × Json)) (key : String) : Option Json :=
  ((fields.filter (fun p => p.1 == key)).getLast?).map (fun p => p.2)

/-- Decode a string struct field, Go style: an absent key or a JSON null
leaves the zero value; any other non-string value is a type error. -/
def decodeStrField (fields : List (String × Json)) (key : String) :
    Except String String :=
  match lookupField fields key with
  | none => .ok ""
  | some .null => .ok ""
  | some (.str s) => .ok s
  | some _ => .error ("json: cannot unmarshal value into string field " ++ key)

/-- Decode an integer struct field, Go style. -/
def decodeIntField (fields : List (String × Json)) (key : String) :
    Except String Int :=
  match lookupField fields key with
  | none => .ok 0
  | some .null => .ok 0
  | some (.num n) => .ok n
  | some _ => .error ("json: cannot unmarshal value into int field " ++ key)

/-- Decode a boolean struct field, Go style. -/
def decodeBoolField (fields : List (String × Json)) (key : String) :
    Except String Bool :=
  match lookupField fields key with
  | none => .ok false
  | some .null => .ok false
  | some (.bool b) => .ok b
  | some _ => .error ("json: cannot unmarshal value into bool field " ++ key)

/-- Decode one element of a `[]string`, Go style (null element → zero). -/
def decodeStrElem : Json → Except String String
  | .null => .ok ""
  | .str s => .ok s
  | _ => .error "json: cannot unmarshal value into string element"

/-- Decode a `[]string` struct field, Go style. -/
def decodeStrListField (fields : List (String × Json)) (key : String) :
    Except String (List String) :=
  match lookupField fields key with
  | none => .ok []
  | some .null => .ok []
  | some (.arr vs) => vs.mapM decodeStrElem
  | some _ => .error ("json: cannot unmarshal value into list field " ++ key)

/-- `taskboard.Task` (client.go). -/
structure Task where
  ID : String
  TicketNumber : String
  BoardID : String
  Title : String
  Description : String
  Status : String
  Priority : Int
  Assignee : String
  Tags : List String
  deriving Repr, DecidableEq, Inhabited

/-- `taskboard.Board` (client.go). -/
structure Board where
  ID : String
  Name : String
  Description : String
  TicketPrefix : String
  deriving Repr, DecidableEq, Inhabited

/-- `taskboard.User` (client.go). -/
structure User where
  ID : String
  Name : String
  Email : String
  IsAgent : Bool
  deriving Repr, DecidableEq, Inhabited

/-- `json.Unmarshal` of a JSON value into a `Task` (a JSON null into a struct
is a no-op, leaving the zero value). -/
def decodeTask : Json → Except String Task
  | .null => .ok default
  | .obj fs => do
    let i ← decodeStrField fs "_id"
    let tn ← decodeStrField fs "ticketNumber"
    let bid ← decodeStrField fs "boardId"
    let title ← decodeStrField fs "title"
    let desc ← decodeStrField fs "description"
    let st ← decodeStrField fs "status"
    let pr ← decodeIntField fs "priority"
    let asg ← decodeStrField fs "assignee"
    let tags ← decodeStrListField fs "tags"
    return ⟨i, tn, bid, title, desc, st, pr, asg, tags⟩
  | _ => .error "json: cannot unmarshal value into Task"

/-- `json.Unmarshal` into a `Board`. -/
def decodeBoard : Json → Except String Board
  | .null => .ok default
  | .obj fs => do
    let i ← decodeStrField fs "_id"
    let n ← decodeStrField fs "name"
    let d ← decodeStrField fs "description"
    let tp ← decodeStrField fs "ticketPrefix"
    return ⟨i, n, d, tp⟩
  | _ => .error "json: cannot unmarshal value into Board"

/-- `json.Unmarshal` into a `User`. -/
def decodeUser : Json → Except String User
  | .null => .ok default
  | .obj fs => do
    let i ← decodeStrField fs "_id"
    let n ← decodeStrField fs "name"
    let e ← decodeStrField fs "email"
    let ia ← decodeBoolField fs "isAgent"
    return ⟨i, n, e, ia⟩
  | _ => .error "json: cannot unmarshal value into User"

/-- `json.Unmarshal` into a `[]Task` (JSON null gives the nil slice). -/
def decodeTasks : Json → Except String (List Task)
  | .null => .ok []
  | .arr vs => vs.mapM decodeTask
  | _ => .error "json: cannot unmarshal value into task list"

/-- `json.Unmarshal` into a `[]Board`. -/
def decodeBoards : Json → Except String (List Board)
  | .null => .ok []
  | .arr vs => vs.mapM decodeBoard
  | _ => .error "json: cannot unmarshal value into board list"

/-- `json.Unmarshal` into a `[]User`. -/
def decodeUsers : Json → Except String (List User)
  | .null => .ok []
  | .arr vs => vs.mapM decodeUser
  | _ => .error "json: cannot unmarshal value into user list"

/-- `json.Unmarshal` of a response body into a `Task`. -/
def unmarshalTask (data : String) : Except String Task :=
  match parseJson data with
  | none => .error "invalid JSON input"
  | some v => decodeTask v

/-- `json.Unmarshal` of a response body into a `[]Task`. -/
def unmarshalTasks (data : String) : Except String (List Task) :=
  match parseJson data with
  | none => .error "invalid JSON input"
  | some v => decodeTasks v

/-- `json.Unmarshal` of a response body into a `[]Board`. -/
def unmarshalBoards (data : String) : Except String (List Board) :=
  match parseJson data with
  | none => .error "invalid JSON input"
  | some v => decodeBoards v

/-- `json.Unmarshal` of a response body into a `[]User`. -/
def unmarshalUsers (data : String) : Except String (List User) :=
  match parseJson data with
  | none => .error "invalid JSON input"
  | some v => decodeUsers v

/-- Canonical form of a decoded Go `map[string]...`: one binding per key (the
last duplicate wins), keys sorted as Go's map marshalling sorts them.  Nested
values are kept as parsed; no verified property inspects them. -/
def canonMap (fs : List (String × Json)) : List (String × Json) :=
  (((fs.map Prod.fst).dedup).insertionSort (fun a b => a ≤ b)).filterMap
    (fun k => (lookupField fs k).map (fun v => (k, v)))

/-- The comment-response decoding of `Client.AddComment` (client.go line 692):
`json.Unmarshal` into a map with the error ignored, so any body that is not a
JSON object yields the nil map. -/
def decodeCommentMap (data : String) : List (String × Json) :=
  match parseJson data with
  | some (.obj fs) => canonMap fs
  | _ => []

/-! ### Go JSON marshalling -/

/-- Lower-case hexadecimal digit. -/
def hexDigitLower (n : Nat) : Char :=
  if n < 10 then Char.ofNat (48 + n) else Char.ofNat (87 + n)

/-- One character of a marshalled JSON string, with Go's default HTML
escaping. -/
def escapeJsonChar (c : Char) : String :=
  if c = '"' then "\\\""
  else if c = '\\' then "\\\\"
  else if c = '\n' then "\\n"
  else if c = '\r' then "\\r"
  else if c = '\t' then "\\t"
  else if c = '&' then "\\u0026"
  else if c = '<' then "\\u003c"
  else if c = '>' then "\\u003e"
  else if c.toNat < 32 then
    "\\u00" ++ String.singleton (hexDigitLower (c.toNat / 16)) ++
      String.singleton (hexDigitLower (c.toNat % 16))
  else if c.toNat = 8232 then "\\u2028"
  else if c.toNat = 8233 then "\\u2029"
  else String.singleton c

/-- A marshalled JSON string literal. -/
def quoteJsonString (s : String) : String :=
  "\"" ++ String.join (s.data.map escapeJsonChar) ++ "\""

/-- Indentation of `json.MarshalIndent(v, "", "  ")` at a nesting level. -/
def indentStr (lvl : Nat) : String :=
  String.mk (List.replicate (2 * lvl) ' ')

mutual

/-- `json.MarshalIndent(v, "", "  ")` rendering at a given nesting level. -/
def marshalIndent : Json → Nat → String
  | .null, _ => "null"
  | .bool true, _ => "true"
  | .bool false, _ => "false"
  | .num n, _ => toString n
  | .str s, _ => quoteJsonString s
  | .arr [], _ => "[]"
  | .arr (v :: vs), lvl =>
    "[\n" ++ indentStr (lvl + 1) ++ marshalIndent v (lvl + 1) ++
      marshalElems vs (lvl + 1) ++ "\n" ++ indentStr lvl ++ "]"
  | .obj [], _ => "\x7b\x7d"
  | .obj ((k, v) :: fs), lvl =>
    "\x7b\n" ++ indentStr (lvl + 1) ++ quoteJsonString k ++ ": " ++
      marshalIndent v (lvl + 1) ++ marshalFields fs (lvl + 1) ++ "\n" ++
      indentStr lvl ++ "\x7d"

/-- Trailing elements of a marshalled JSON array. -/
def marshalElems : List Json → Nat → String
  | [], _ => ""
  | v :: vs, lvl =>
    ",\n" ++ indentStr lvl ++ marshalIndent v lvl ++ marshalElems vs lvl

/-- Trailing members of a marshalled JSON object. -/
def marshalFields : List (String × Json) → Nat → String
  | [], _ => ""
  | (k, v) :: fs, lvl =>
    ",\n" ++ indentStr lvl ++ quoteJsonString k ++ ": " ++ marshalIndent v lvl ++
      marshalFields fs lvl

end

/-- The marshalled form of a `Task` (field order and json tags of the Go
struct). -/
def marshalTask (t : Task) : Json :=
  .obj [("_id", .str t.ID), ("ticketNumber", .str t.TicketNumber),
        ("boardId", .str t.BoardID), ("title", .str t.Title),
        ("description", .str t.Description), ("status", .str t.Status),
        ("priority", .num t.Priority), ("assignee", .str t.Assignee),
        ("tags", .arr (t.Tags.map Json.str))]

/-- The marshalled form of a `Board`. -/
def marshalBoard : Board → Json
  | ⟨i, n, d, tp⟩ =>
    .obj [("_id", .str i), ("name", .str n), ("description", .str d),
          ("ticketPrefix", .str tp)]

/-- The marshalled form of a `User`. -/
def marshalUser : User → Json
  | ⟨i, n, e, ia⟩ =>
    .obj [("_id", .str i), ("name", .str n), ("email", .str e),
          ("isAgent", .bool ia)]

/-- `taskboard.CreateTaskParams` (client.go). -/
structure CreateTaskParams where
  BoardID : String
  Title : String
  Description : String
  Assignee : String
  Status : String
  Priority : Int
  deriving Repr, DecidableEq, Inhabited

/-- The marshalled form of `CreateTaskParams`: `boardId` and `title` always,
the `omitempty` fields only when non-zero. -/
def marshalCreateTaskParams (p : CreateTaskParams) : Json :=
  .obj ([("boardId", Json.str p.BoardID), ("title", Json.str p.Title)] ++
    (if p.Description ≠ "" then [("description", Json.str p.Description)] else []) ++
    (if p.Assignee ≠ "" then [("assignee", Json.str p.Assignee)] else []) ++
    (if p.Status ≠ "" then [("status", Json.str p.Status)] else []) ++
    (if p.Priority ≠ 0 then [("priority", Json.num p.Priority)] else []))

/-- `taskboard.UpdateTaskParams` (client.go): optional pointer fields. -/
structure UpdateTaskParams where
  Title : Option String
  Description : Option String
  Assignee : Option String
  Status : Option String
  Priority : Option Int
  deriving Repr, DecidableEq, Inhabited

/-- The members of the marshalled form of `UpdateTaskParams`: every field is
`omitempty`, so exactly the supplied (non-nil) fields appear. -/
def updateBodyFields (p : UpdateTaskParams) : List (String × Json) :=
  (p.Title.map (fun s => ("title", Json.str s))).toList ++
  (p.Description.map (fun s => ("description", Json.str s))).toList ++
  (p.Assignee.map (fun s => ("assignee", Json.str s))).toList ++
  (p.Status.map (fun s => ("status", Json.str s))).toList ++
  (p.Priority.map (fun n => ("priority", Json.num n))).toList

/-- The marshalled form of `UpdateTaskParams`. -/
def marshalUpdateTaskParams (p : UpdateTaskParams) : Json :=
  .obj (updateBodyFields p)

/-! ### The remote service as an oracle, and `taskboard.Client` -/

/-- One HTTP request as issued by `Client.request`: method, path (with encoded
query), and the marshalled JSON body if any. -/
structure HttpReq where
  method : String
  path : String
  body : Option Json
  deriving Repr, Inhabited

/-- What the network does with one request: fail at the transport level
(`http.Client.Do` error) or deliver a status code and a raw body. -/
inductive NetResult where
  | transportError : String → NetResult
  | response : Nat → String → NetResult
  deriving Repr, DecidableEq, Inhabited

/-- The remote HTTP service together with the transport, as an oracle. -/
def Net : Type := HttpReq → NetResult

namespace Client

/-- `Client.request` (client.go lines 492-526): issue one HTTP request; a
transport failure is an error, a status ≥ 400 becomes
`API error <status>: <body>`, otherwise the raw response body is returned.
The second component is the trace of issued requests. -/
def request (net : Net) (method path : String) (body : Option Json) :
    Except String String × List HttpReq :=
  let req : HttpReq := ⟨method, path, body⟩
  (match net req with
   | .transportError e => .error e
   | .response status respBody =>
     if 400 ≤ status then
       .error ("API error " ++ toString status ++ ": " ++ respBody)
     else .ok respBody,
   [req])

/-- `Client.ListBoards` (client.go lines 558-570). -/
def ListBoards (net : Net) : Except String (List Board) × List HttpReq :=
  let p := request net "GET" "/api/boards" none
  (match p.1 with
   | .error e => .error e
   | .ok data => unmarshalBoards data,
   p.2)

end Client

/-- Characters that `url.QueryEscape` leaves unescaped. -/
def isQueryUnreserved (c : Char) : Bool :=
  c.isAlphanum || c = '-' || c = '_' || c = '.' || c = '~'

/-- Upper-case hexadecimal digit. -/
def hexDigitUpper (n : Nat) : Char :=
  if n < 10 then Char.ofNat (48 + n) else Char.ofNat (55 + n)

/-- UTF-8 bytes of a character. -/
def utf8Bytes (c : Char) : List Nat :=
  let n := c.toNat
  if n < 128 then [n]
  else if n < 2048 then [192 + n / 64, 128 + n % 64]
  else if n < 65536 then [224 + n / 4096, 128 + n / 64 % 64, 128 + n % 64]
  else [240 + n / 262144, 128 + n / 4096 % 64, 128 + n / 64 % 64, 128 + n % 64]

/-- Percent-encoding of one byte. -/
def percentByte (b : Nat) : String :=
  "%" ++ String.singleton (hexDigitUpper (b / 16)) ++
    String.singleton (hexDigitUpper (b % 16))

/-- `url.QueryEscape`. -/
def queryEscape (s : String) : String :=
  String.join (s.data.map (fun c =>
    if isQueryUnreserved c then String.singleton c
    else if c = ' ' then "+"
    else String.join ((utf8Bytes c).map percentByte)))

/-- `url.Values.Encode`: keys sorted, `k=v` pairs joined by `&`. -/
def encodeQuery (params : List (String × String)) : String :=
  String.intercalate "&"
    ((params.insertionSort (fun a b => a.1 ≤ b.1)).map
      (fun p => queryEscape p.1 ++ "=" ++ queryEscape p.2))

/-- The query filters set by `Client.ListTasks` (client.go lines 573-582):
each one only when non-empty. -/
def listTasksParams (boardID status assignee : String) : List (String × String) :=
  (if boardID ≠ "" then [("boardId", boardID)] else []) ++
  (if status ≠ "" then [("status", status)] else []) ++
  (if assignee ≠ "" then [("assignee", assignee)] else [])

/-- The request path built by `Client.ListTasks` (client.go lines 584-587). -/
def listTasksPath (boardID status assignee : String) : String :=
  let params := listTasksParams boardID status assignee
  if 0 < params.length then "/api/tasks?" ++ encodeQuery params else "/api/tasks"

namespace Client

/-- `Client.ListTasks` (client.go lines 572-600). -/
def ListTasks (net : Net) (boardID status assignee : String) :
    Except String (List Task) × List HttpReq :=
  let p := request net "GET" (listTasksPath boardID status assignee) none
  (match p.1 with
   | .error e => .error e
   | .ok data => unmarshalTasks data,
   p.2)

/-- The ID-lookup fall-through of `Client.GetTask` (client.go lines 614-626):
fetch `/api/tasks/<id>` and parse the body. -/
def getTaskById (net : Net) (idOrTicket : String) :
    Except String Task × List HttpReq :=
  let p := request net "GET" ("/api/tasks/" ++ idOrTicket) none
  (match p.1 with
   | .error e => .error e
   | .ok data => unmarshalTask data,
   p.2)

/-- The ticket-number attempt of `Client.GetTask` (client.go lines 604-612):
the HTTP error and the parse error are folded into one `Except`, since the
caller only distinguishes success from failure. -/
def ticketLookup (net : Net) (idOrTicket : String) :
    Except String Task × List HttpReq :=
  let p := request net "GET" ("/api/tasks/by-ticket/" ++ idOrTicket) none
  (match p.1 with
   | .error e => .error e
   | .ok data => unmarshalTask data,
   p.2)

end Client

/-- `strings.Contains(idOrTicket, "-")` (client.go line 604). -/
def containsHyphen (s : String) : Bool :=
  s.data.contains '-'

namespace Client

/-- `Client.GetTask` (client.go lines 602-626): if the identifier contains a
hyphen, try the ticket-number endpoint first and keep its result only on a
fully successful request-and-parse; otherwise (and on any failure of that
attempt) look up by raw identifier. -/
def GetTask (net : Net) (idOrTicket : String) :
    Except String Task × List HttpReq :=
  if containsHyphen idOrTicket then
    let q := ticketLookup net idOrTicket
    match q.1 with
    | .ok task => (.ok task, q.2)
    | .error _ =>
      let p := getTaskById net idOrTicket
      (p.1, q.2 ++ p.2)
  else getTaskById net idOrTicket

/-- `Client.CreateTask` (client.go lines 637-649). -/
def CreateTask (net : Net) (params : CreateTaskParams) :
    Except String Task × List HttpReq :=
  let p := request net "POST" "/api/tasks" (some (marshalCreateTaskParams params))
  (match p.1 with
   | .error e => .error e
   | .ok data => unmarshalTask data,
   p.2)

/-- `Client.UpdateTask` (client.go lines 659-673): resolve the identifier via
`GetTask`, `PUT` the params against the canonical ID, then re-fetch and return
the fresh task. -/
def UpdateTask (net : Net) (idOrTicket : String) (params : UpdateTaskParams) :
    Except String Task × List HttpReq :=
  let q := GetTask net idOrTicket
  match q.1 with
  | .error e => (.error e, q.2)
  | .ok task =>
    let w := request net "PUT" ("/api/tasks/" ++ task.ID)
      (some (marshalUpdateTaskParams params))
    match w.1 with
    | .error e => (.error e, q.2 ++ w.2)
    | .ok _ =>
      let r := GetTask net task.ID
      (r.1, q.2 ++ w.2 ++ r.2)

/-- `Client.AddComment` (client.go lines 679-694): resolve the identifier via
`GetTask`, `POST` the comment, and decode the response with the decode error
ignored (line 692). -/
def AddComment (net : Net) (idOrTicket text : String) :
    Except String (List (String × Json)) × List HttpReq :=
  let q := GetTask net idOrTicket
  match q.1 with
  | .error e => (.error e, q.2)
  | .ok task =>
    let w := request net "POST" ("/api/tasks/" ++ task.ID ++ "/comments")
      (some (Json.obj [("text", Json.str text)]))
    match w.1 with
    | .error e => (.error e, q.2 ++ w.2)
    | .ok data => (.ok (decodeCommentMap data), q.2 ++ w.2)

/-- `Client.ListUsers` (client.go lines 696-708). -/
def ListUsers (net : Net) : Except String (List User) × List HttpReq :=
  let p := request net "GET" "/api/users" none
  (match p.1 with
   | .error e => .error e
   | .ok data => unmarshalUsers data,
   p.2)

end Client

/-! ### MCP tool registry and envelope types (`server.go`, `main.go`) -/

/-- `mcp.Property` (schema of one tool parameter); the `Type` field is spelled
`typ` because `Type` is reserved in Lean. -/
structure Property where
  typ : String
  description : String
  enum : List String
  deriving Repr, DecidableEq, Inhabited

/-- `mcp.InputSchema`: the `Properties` map is modelled as an association list
in the source order of `registerTools`. -/
structure InputSchema where
  typ : String
  properties : List (String × Property)
  required : List String
  deriving Repr, DecidableEq, Inhabited

/-- `mcp.Tool`: one tool descriptor. -/
structure Tool where
  Name : String
  Description : String
  Schema : InputSchema
  deriving Repr, DecidableEq, Inhabited

/-- `mcp.ProtocolVersion` (server.go line 11). -/
def ProtocolVersion : String := "2024-11-05"

/-- `mcp.ServerName` (server.go line 12). -/
def ServerName : String := "taskboard-mcp"

/-- `mcp.ServerVersion` (server.go line 13). -/
def ServerVersion : String := "0.1.0"

/-- The status enumeration advertised in the tool schemas (server.go). -/
def statusEnum : List String :=
  ["backlog", "todo", "in-progress", "in-qa", "completed", "rfp", "closed"]

/-- `Server.registerTools` (server.go lines 27-125): the static seven-tool
registry, built once at startup. -/
def registeredTools : List Tool :=
  [⟨"list_boards", "List all boards", ⟨"object", [], []⟩⟩,
   ⟨"list_tasks", "List tasks with optional filters",
    ⟨"object",
     [("board_id", ⟨"string", "Filter by board ID", []⟩),
      ("status", ⟨"string", "Filter by status", statusEnum⟩),
      ("assignee", ⟨"string", "Filter by assignee email", []⟩)],
     []⟩⟩,
   ⟨"get_task", "Get a task by ID or ticket number (e.g., MNS-42)",
    ⟨"object",
     [("id", ⟨"string", "Task ID or ticket number", []⟩)],
     ["id"]⟩⟩,
   ⟨"create_task", "Create a new task",
    ⟨"object",
     [("board_id", ⟨"string", "Board ID", []⟩),
      ("title", ⟨"string", "Task title", []⟩),
      ("description", ⟨"string", "Task description", []⟩),
      ("assignee", ⟨"string", "Assignee email", []⟩),
      ("priority", ⟨"integer", "Priority (1=highest, 5=lowest)", []⟩),
      ("status", ⟨"string", "Initial status", statusEnum⟩)],
     ["board_id", "title"]⟩⟩,
   ⟨"update_task", "Update a task",
    ⟨"object",
     [("id", ⟨"string", "Task ID or ticket number", []⟩),
      ("title", ⟨"string", "New title", []⟩),
      ("description", ⟨"string", "New description", []⟩),
      ("assignee", ⟨"string", "New assignee email", []⟩),
      ("status", ⟨"string", "New status", statusEnum⟩),
      ("priority", ⟨"integer", "New priority (1=highest, 5=lowest)", []⟩)],
     ["id"]⟩⟩,
   ⟨"add_comment", "Add a comment to a task",
    ⟨"object",
     [("task_id", ⟨"string", "Task ID or ticket number", []⟩),
      ("text", ⟨"string", "Comment text", []⟩)],
     ["task_id", "text"]⟩⟩,
   ⟨"list_users", "List all team members (for task assignment)",
    ⟨"object", [], []⟩⟩]

/-- `mcp.Server` (server.go lines 16-19): the dispatcher state.  Its remote
client is modelled by the separate `Net` oracle passed to the handlers; the
only remaining field is the tool registry. -/
structure Server where
  tools : List Tool
  deriving Repr, DecidableEq

/-- `mcp.NewServer` (server.go lines 21-25): registers the tools once. -/
def NewServer : Server := ⟨registeredTools⟩

/-- Modelled from the spec: the JSON-RPC request envelope (spec §3, §6).  The
Go file declaring the envelope types is not part of the repository snapshot;
the fields are those used by `server.go` and `main.go`: protocol tag, optional
correlation id (a dynamic value; JSON null and absent are both the nil
interface, modelled `none`), method name, and the raw params payload (a raw
message, so a literal JSON null is kept as `some Json.null`). -/
structure Request where
  jsonrpc : String
  id : Option Json
  method : String
  params : Option Json
  deriving Repr, Inhabited

/-- Modelled from the spec: the JSON-RPC error object (spec §6): code, message,
optional diagnostic data. -/
structure Error where
  code : Int
  message : String
  data : String
  deriving Repr, DecidableEq, Inhabited

/-- `mcp.ContentBlock` (one text content block of a tool result); the `Type`
field is spelled `typ` because `Type` is reserved in Lean. -/
structure ContentBlock where
  typ : String
  text : String
  deriving Repr, DecidableEq, Inhabited

/-- `mcp.CallToolResult` (content blocks plus the is-error flag). -/
structure CallToolResult where
  content : List ContentBlock
  isError : Bool
  deriving Repr, DecidableEq, Inhabited

/-- `mcp.ServerInfo`. -/
structure ServerInfo where
  name : String
  version : String
  deriving Repr, DecidableEq, Inhabited

/-- Modelled from the spec: declared capabilities (tool-calling support),
spec §4.2; `tools` records whether the tools capability is present. -/
structure ServerCapabilities where
  tools : Bool
  deriving Repr, DecidableEq, Inhabited

/-- `mcp.InitializeResult`. -/
structure InitializeResult where
  protocolVersion : String
  capabilities : ServerCapabilities
  serverInfo : ServerInfo
  deriving Repr, DecidableEq, Inhabited

/-- Modelled from the spec: the possible result payloads of a response (the Go
field holds a dynamic value; these are the three shapes `server.go`
produces). -/
inductive ResultVal where
  | initRes : InitializeResult → ResultVal
  | toolsList : List Tool → ResultVal
  | callTool : CallToolResult → ResultVal
  deriving Repr, DecidableEq

/-- Modelled from the spec: the JSON-RPC response envelope (spec §6): either a
result payload or an error object, with the request's correlation id. -/
structure Response where
  jsonrpc : String
  id : Option Json
  result : Option ResultVal
  error : Option Error
  deriving Repr, Inhabited

/-- `json.Unmarshal` of a JSON value into a `Request` (a JSON null into a
struct is a no-op on the zero value). -/
def decodeRequest : Json → Except String Request
  | .null => .ok ⟨"", none, "", none⟩
  | .obj fs => do
    let j ← decodeStrField fs "jsonrpc"
    let m ← decodeStrField fs "method"
    let i := match lookupField fs "id" with
      | some .null => none
      | x => x
    let p := lookupField fs "params"
    return ⟨j, i, m, p⟩
  | _ => .error "json: cannot unmarshal value into Request"

/-- `mcp.CallToolParams`: tool name and argument mapping (the Go map is
modelled as the association list of the decoded object; lookups take the last
binding, as Go map decoding does). -/
structure CallToolParams where
  name : String
  arguments : List (String × Json)
  deriving Repr, Inhabited

/-- `json.Unmarshal(req.Params, &params)` in `handleToolsCall` (server.go
line 173): fails when params are absent (nil raw message) or not a JSON
object (null is a no-op on the zero value). -/
def decodeCallToolParams : Option Json → Except String CallToolParams
  | none => .error "unexpected end of JSON input"
  | some .null => .ok ⟨"", []⟩
  | some (.obj fs) => do
    let n ← decodeStrField fs "name"
    let args ← match lookupField fs "arguments" with
      | none => pure []
      | some Json.null => pure []
      | some (Json.obj afs) => pure afs
      | some _ =>
        Except.error "json: cannot unmarshal value into arguments map"
    return CallToolParams.mk n args
  | some _ => .error "json: cannot unmarshal value into CallToolParams"

/-! ### Argument helpers and tool dispatch (`server.go`) -/

/-- `getString` (server.go lines 266-269): Go string type assertion with
zero-value default — missing keys and non-string values give `""`. -/
def getString (args : List (String × Json)) (key : String) : String :=
  match lookupField args key with
  | some (.str s) => s
  | _ => ""

/-- `getStringPtr` (server.go lines 271-276): `some` only for a present
string-typed argument. -/
def getStringPtr (args : List (String × Json)) (key : String) : Option String :=
  match lookupField args key with
  | some (.str s) => some s
  | _ => none

/-- `getInt` (server.go lines 278-283): Go float64 type assertion with
zero-value default (JSON numbers decode to float64). -/
def getInt (args : List (String × Json)) (key : String) : Int :=
  match lookupField args key with
  | some (.num n) => n
  | _ => 0

/-- `getIntPtr` (server.go lines 285-291). -/
def getIntPtr (args : List (String × Json)) (key : String) : Option Int :=
  match lookupField args key with
  | some (.num n) => some n
  | _ => none

/-- The dynamic result value returned by `callTool` (server.go line 204),
limited to the shapes the seven tools produce. -/
inductive ToolResult where
  | boards : List Board → ToolResult
  | tasks : List Task → ToolResult
  | task : Task → ToolResult
  | comment : List (String × Json) → ToolResult
  | users : List User → ToolResult
  deriving Repr

/-- The JSON shape `json.MarshalIndent` sees for each tool result. -/
def toolResultJson : ToolResult → Json
  | .boards bs => .arr (bs.map marshalBoard)
  | .tasks ts => .arr (ts.map marshalTask)
  | .task t => marshalTask t
  | .comment fs => .obj fs
  | .users us => .arr (us.map marshalUser)

/-- The `UpdateTaskParams` literal built in `callTool` (server.go lines
242-248). -/
def updateParamsFromArgs (args : List (String × Json)) : UpdateTaskParams :=
  ⟨getStringPtr args "title", getStringPtr args "description",
   getStringPtr args "assignee", getStringPtr args "status",
   getIntPtr args "priority"⟩

/-- `Server.callTool` (server.go lines 204-264): the tool-name switch.  The
`get_task` guard `!ok or id == ""` is exactly `getString args "id" = ""`,
since a failed string assertion yields `""`. -/
def callTool (net : Net) (name : String) (args : List (String × Json)) :
    Except String ToolResult × List HttpReq :=
  if name = "list_boards" then
    let p := Client.ListBoards net
    (p.1.map ToolResult.boards, p.2)
  else if name = "list_tasks" then
    let p := Client.ListTasks net (getString args "board_id")
      (getString args "status") (getString args "assignee")
    (p.1.map ToolResult.tasks, p.2)
  else if name = "get_task" then
    if getString args "id" = "" then (.error "id is required", [])
    else
      let p := Client.GetTask net (getString args "id")
      (p.1.map ToolResult.task, p.2)
  else if name = "create_task" then
    if getString args "board_id" = "" ∨ getString args "title" = "" then
      (.error "board_id and title are required", [])
    else
      let p := Client.CreateTask net
        ⟨getString args "board_id", getString args "title",
         getString args "description", getString args "assignee",
         getString args "status", getInt args "priority"⟩
      (p.1.map ToolResult.task, p.2)
  else if name = "update_task" then
    if getString args "id" = "" then (.error "id is required", [])
    else
      let p := Client.UpdateTask net (getString args "id") (updateParamsFromArgs args)
      (p.1.map ToolResult.task, p.2)
  else if name = "add_comment" then
    if getString args "task_id" = "" ∨ getString args "text" = "" then
      (.error "task_id and text are required", [])
    else
      let p := Client.AddComment net (getString args "task_id") (getString args "text")
      (p.1.map ToolResult.comment, p.2)
  else if name = "list_users" then
    let p := Client.ListUsers net
    (p.1.map ToolResult.users, p.2)
  else (.error ("unknown tool: " ++ name), [])

/-- `Server.handleInitialize` (server.go lines 146-161); shortened name. -/
def Server.handleInit (_s : Server) (req : Request) : Response :=
  ⟨"2.0", req.id,
   some (.initRes ⟨ProtocolVersion, ⟨true⟩, ⟨ServerName, ServerVersion⟩⟩),
   none⟩

/-- `Server.handleToolsList` (server.go lines 163-169). -/
def Server.handleToolsList (s : Server) (req : Request) : Response :=
  ⟨"2.0", req.id, some (.toolsList s.tools), none⟩

/-- `Server.handleToolsCall` (server.go lines 171-202), together with the
trace of HTTP requests the call issued. -/
def Server.handleToolsCall (_s : Server) (net : Net) (req : Request) :
    Response × List HttpReq :=
  match decodeCallToolParams req.params with
  | .error _ =>
    (⟨"2.0", req.id, none, some ⟨-32602, "Invalid params", ""⟩⟩, [])
  | .ok params =>
    let p := callTool net params.name params.arguments
    match p.1 with
    | .error e =>
      (⟨"2.0", req.id,
        some (.callTool ⟨[⟨"text", "Error: " ++ e⟩], true⟩), none⟩, p.2)
    | .ok r =>
      (⟨"2.0", req.id,
        some (.callTool ⟨[⟨"text", marshalIndent (toolResultJson r) 0⟩], false⟩),
        none⟩, p.2)

/-- `Server.Handle` (server.go lines 127-144): the method switch.  The Go
method mutates nothing: the server value is read-only here, which the model
reflects by not returning a new server. -/
def Server.Handle (s : Server) (net : Net) (req : Request) :
    Response × List HttpReq :=
  if req.method = "initialize" then (s.handleInit req, [])
  else if req.method = "initialized" then (⟨"2.0", req.id, none, none⟩, [])
  else if req.method = "tools/list" then (s.handleToolsList req, [])
  else if req.method = "tools/call" then s.handleToolsCall net req
  else (⟨"2.0", req.id, none, some ⟨-32601, "Method not found", ""⟩⟩, [])

/-! ### The stdio transport loop (`main.go`) -/

/-- `json.Unmarshal` of one input line into a `Request` (main.go line 30). -/
def unmarshalRequest (line : String) : Except String Request :=
  match parseJson line with
  | none => .error "invalid JSON input"
  | some v => decodeRequest v

/-- One iteration of the stdio loop (main.go lines 26-39): a line that fails
to unmarshal produces the `sendError(nil, -32700, "Parse error", ...)`
response (main.go lines 46-58); otherwise the parsed request is handled. -/
def processLine (net : Net) (line : String) : Response :=
  match unmarshalRequest line with
  | .error e => ⟨"2.0", none, none, some ⟨-32700, "Parse error", e⟩⟩
  | .ok req => (NewServer.Handle net req).1

/-- The stdio loop of `main`: every scanned line, empty or not, is fed to the
parser and yields exactly one response line. -/
def processLines (net : Net) (lines : List String) : List Response :=
  lines.map (processLine net)

/-! ### Concrete oracles used to witness the theorems -/

/-- A network that refuses every connection. -/
def netDead : Net := fun _ => .transportError "connection refused"

/-- A remote service that answers every request with HTTP 500. -/
def net500 : Net := fun _ => .response 500 "internal error"

/-- A sample task whose ID contains no hyphen. -/
def taskAbc : Task := ⟨"abc", "MNS-7", "b1", "Title", "Desc", "todo", 2, "dev@x.io", []⟩

/-- The body of a successful task response. -/
def taskAbcBody : String := marshalIndent (marshalTask taskAbc) 0

/-- A service that 404s the ticket endpoint for `MNS-42` but serves the raw-ID
endpoint for the same string. -/
def net404 : Net := fun r =>
  if r.path = "/api/tasks/by-ticket/MNS-42" then .response 404 "not found"
  else if r.path = "/api/tasks/MNS-42" then .response 200 taskAbcBody
  else .transportError "no route"

/-- A service on which an update of task `abc` fully succeeds. -/
def netHappy : Net := fun r =>
  if r.method = "GET" ∧ r.path = "/api/tasks/abc" then .response 200 taskAbcBody
  else if r.method = "PUT" ∧ r.path = "/api/tasks/abc" then .response 200 "ok"
  else .transportError "no route"

/-- A service whose comments endpoint answers 200 with a non-JSON body. -/
def netBadComment : Net := fun r =>
  if r.method = "GET" ∧ r.path = "/api/tasks/abc" then .response 200 taskAbcBody
  else if r.method = "POST" ∧ r.path = "/api/tasks/abc/comments" then
    .response 200 "not json"
  else .transportError "no route"

/-- A service whose boards endpoint answers 200 with a non-JSON body. -/
def netBadBoards : Net := fun r =>
  if r.path = "/api/boards" then .response 200 "not json"
  else .transportError "no route"

/-- A service that serves the resolution GET for task `abc` but fails the PUT
at the transport level. -/
def netPutDead : Net := fun r =>
  if r.method = "GET" ∧ r.path = "/api/tasks/abc" then .response 200 taskAbcBody
  else if r.method = "PUT" ∧ r.path = "/api/tasks/abc" then
    .transportError "put refused"
  else .transportError "no route"

/-- A service whose comments endpoint answers HTTP 500. -/
def netComment500 : Net := fun r =>
  if r.method = "GET" ∧ r.path = "/api/tasks/abc" then .response 200 taskAbcBody
  else if r.method = "POST" ∧ r.path = "/api/tasks/abc/comments" then
    .response 500 "boom"
  else .transportError "no route"

/-! ### Helper lemmas on request traces -/

/-- `Client.request` issues exactly the one request it is given. -/
theorem request_trace (net : Net) (m p : String) (b : Option Json) :
    (Client.request net m p b).2 = [⟨m, p, b⟩] := rfl

/-- The ID lookup issues exactly one GET on the raw-identifier path. -/
theorem getTaskById_trace (net : Net) (s : String) :
    (Client.getTaskById net s).2 = [⟨"GET", "/api/tasks/" ++ s, none⟩] := rfl

/-- The ticket attempt issues exactly one GET on the by-ticket path. -/
theorem ticketLookup_trace (net : Net) (s : String) :
    (Client.ticketLookup net s).2 = [⟨"GET", "/api/tasks/by-ticket/" ++ s, none⟩] := rfl

/-- Every request issued by `Client.GetTask` is a GET. -/
theorem getTask_methods (net : Net) (s : String) :
    ∀ r ∈ (Client.GetTask net s).2, r.method = "GET" := by
  intro r hr
  simp only [Client.GetTask] at hr
  by_cases hc : containsHyphen s
  · rw [if_pos hc] at hr
    rcases hq : Client.ticketLookup net s with ⟨q1, tr⟩
    have htr : tr = [⟨"GET", "/api/tasks/by-ticket/" ++ s, none⟩] := by
      have h2 := ticketLookup_trace net s
      rw [hq] at h2
      exact h2
    rw [hq] at hr
    cases q1 with
    | ok task =>
      simp only [htr, List.mem_singleton] at hr
      rw [hr]
    | error e =>
      rcases hp : Client.getTaskById net s with ⟨p1, tr2⟩
      have htr2 : tr2 = [⟨"GET", "/api/tasks/" ++ s, none⟩] := by
        have h2 := getTaskById_trace net s
        rw [hp] at h2
        exact h2
      rw [hp] at hr
      simp only [htr, htr2, List.mem_append, List.mem_singleton] at hr
      rcases hr with hr | hr <;> rw [hr]
  · rw [if_neg hc] at hr
    rw [getTaskById_trace net s] at hr
    simp only [List.mem_singleton] at hr
    rw [hr]

/-! ### The claims -/

/-- C10: an empty input line is not skipped: it is fed to the JSON parser like
any other line, fails to parse, and yields the `-32700` response with a null
correlation id (modelled `id = none`), after which the loop continues with the
remaining lines. -/
theorem emptyLine_parse_error (net : Net) (rest : List String) :
    ∃ d, processLines net ("" :: rest) =
      ⟨"2.0", none, none, some ⟨-32700, "Parse error", d⟩⟩ :: processLines net rest :=
  ⟨"invalid JSON input", rfl⟩

/-- C4: any input line that is not valid JSON yields a JSON-RPC error response
with code `-32700` and a null correlation id (modelled `id = none`), and the
loop continues with the remaining lines instead of terminating. -/
theorem invalidLine_parse_error (net : Net) (line : String) (rest : List String)
    (h : parseJson line = none) :
    ∃ d, processLines net (line :: rest) =
      ⟨"2.0", none, none, some ⟨-32700, "Parse error", d⟩⟩ :: processLines net rest := by
  refine ⟨"invalid JSON input", ?_⟩
  simp only [processLines, List.map_cons, processLine, unmarshalRequest, h]

/-- Witness for C4 at the concrete non-JSON line `"oops"`. -/
theorem invalidLine_parse_error_witness :
    ∃ d, processLines netDead ["oops"] =
      ⟨"2.0", none, none, some ⟨-32700, "Parse error", d⟩⟩ :: processLines netDead [] :=
  invalidLine_parse_error netDead "oops" [] rfl

/-- The default branch of the `callTool` switch (server.go lines 261-263). -/
theorem callTool_unknown (net : Net) (name : String) (args : List (String × Json))
    (h1 : name ≠ "list_boards") (h2 : name ≠ "list_tasks") (h3 : name ≠ "get_task")
    (h4 : name ≠ "create_task") (h5 : name ≠ "update_task") (h6 : name ≠ "add_comment")
    (h7 : name ≠ "list_users") :
    callTool net name args = (.error ("unknown tool: " ++ name), []) := by
  simp [callTool, h1, h2, h3, h4, h5, h6, h7]

/-- C3: a `tools/call` whose decoded tool name is not in the seven-entry
registry produces a successful JSON-RPC response — no error object — whose
result is a single text content block reading `Error: unknown tool: <name>`
with the is-error flag set, and issues no HTTP request. -/
theorem unknownTool_result (net : Net) (req : Request) (cp : CallToolParams)
    (hm : req.method = "tools/call")
    (hp : decodeCallToolParams req.params = .ok cp)
    (hname : cp.name ∉ registeredTools.map Tool.Name) :
    NewServer.Handle net req =
      (⟨"2.0", req.id,
        some (.callTool ⟨[⟨"text", "Error: unknown tool: " ++ cp.name⟩], true⟩),
        none⟩, []) := by
  have hreg : registeredTools.map Tool.Name =
      ["list_boards", "list_tasks", "get_task", "create_task", "update_task",
       "add_comment", "list_users"] := rfl
  rw [hreg] at hname
  simp only [List.mem_cons, List.not_mem_nil, not_or, or_false] at hname
  obtain ⟨h1, h2, h3, h4, h5, h6, h7⟩ := hname
  have hcall := callTool_unknown net cp.name cp.arguments h1 h2 h3 h4 h5 h6 h7
  simp [Server.Handle, hm, Server.handleToolsCall, hp, hcall]
  rw [← String.append_assoc]
  rfl

/-- Witness for C3 at the concrete unregistered name `"frobnicate"`. -/
theorem unknownTool_result_witness :
    NewServer.Handle netDead
        ⟨"2.0", some (.num 3), "tools/call", some (.obj [("name", .str "frobnicate")])⟩ =
      (⟨"2.0", some (.num 3),
        some (.callTool ⟨[⟨"text", "Error: unknown tool: frobnicate"⟩], true⟩),
        none⟩, []) :=
  unknownTool_result netDead
    ⟨"2.0", some (.num 3), "tools/call", some (.obj [("name", .str "frobnicate")])⟩
    ⟨"frobnicate", []⟩ rfl rfl (by decide)

/-- C6: every HTTP response with status at least 400 becomes the failure
`API error <status>: <raw body>`; in particular an HTTP 500 with body
`internal error` surfaces through `tools/call` as a tool-error result whose
text is `Error: API error 500: internal error`. -/
theorem apiError_format :
    (∀ (net : Net) (m p : String) (b : Option Json) (status : Nat) (body : String),
       net ⟨m, p, b⟩ = .response status body → 400 ≤ status →
       (Client.request net m p b).1 =
         .error ("API error " ++ toString status ++ ": " ++ body)) ∧
    (NewServer.Handle net500
        ⟨"2.0", some (.num 7), "tools/call", some (.obj [("name", .str "list_boards")])⟩).1 =
      ⟨"2.0", some (.num 7),
       some (.callTool ⟨[⟨"text", "Error: API error 500: internal error"⟩], true⟩),
       none⟩ := by
  constructor
  · intro net m p b status body hnet hs
    simp [Client.request, hnet, hs]
  · rfl

/-- Witness for the universally quantified part of C6 at a concrete 500. -/
theorem apiError_format_witness :
    (Client.request net500 "GET" "/api/boards" none).1 =
      .error ("API error " ++ toString 500 ++ ": " ++ "internal error") :=
  apiError_format.1 net500 "GET" "/api/boards" none 500 "internal error" rfl (by decide)

/-- C5 counterexample: with `board_id` absent and `title` non-empty, the tool
result's content text is `Error: board_id and title are required` — carrying
the `Error: ` prefix added by `handleToolsCall` — and not the bare
`board_id and title are required` the claim states; the request trace is
nevertheless empty as claimed. -/
theorem createTask_text_counterexample :
    NewServer.Handle netDead
        ⟨"2.0", some (.num 1), "tools/call",
         some (.obj [("name", .str "create_task"),
                     ("arguments", .obj [("title", .str "x")])])⟩ =
      (⟨"2.0", some (.num 1),
        some (.callTool ⟨[⟨"text", "Error: board_id and title are required"⟩], true⟩),
        none⟩, []) ∧
    "Error: board_id and title are required" ≠ "board_id and title are required" :=
  ⟨rfl, by decide⟩

/-- C5 (amended): a `tools/call` of `create_task` whose `board_id` argument is
empty — absent, the empty string, or non-string, which is exactly
`getString args "board_id" = ""` — and whose `title` argument is a non-empty
string returns a tool-error result whose single content text is
`Error: board_id and title are required`, and issues no HTTP request. -/
theorem createTask_validation (net : Net) (req : Request) (cp : CallToolParams)
    (hm : req.method = "tools/call")
    (hp : decodeCallToolParams req.params = .ok cp)
    (hname : cp.name = "create_task")
    (hb : getString cp.arguments "board_id" = "")
    (_ht : getString cp.arguments "title" ≠ "") :
    NewServer.Handle net req =
      (⟨"2.0", req.id,
        some (.callTool ⟨[⟨"text", "Error: board_id and title are required"⟩], true⟩),
        none⟩, []) := by
  simp [Server.Handle, hm, Server.handleToolsCall, hp, callTool, hname, hb]

/-- Witness for C5's amended theorem at a concrete call. -/
theorem createTask_validation_witness :
    NewServer.Handle netDead
        ⟨"2.0", some (.num 1), "tools/call",
         some (.obj [("name", .str "create_task"),
                     ("arguments", .obj [("title", .str "x")])])⟩ =
      (⟨"2.0", some (.num 1),
        some (.callTool ⟨[⟨"text", "Error: board_id and title are required"⟩], true⟩),
        none⟩, []) :=
  createTask_validation netDead
    ⟨"2.0", some (.num 1), "tools/call",
     some (.obj [("name", .str "create_task"),
                 ("arguments", .obj [("title", .str "x")])])⟩
    ⟨"create_task", [("title", .str "x")]⟩ rfl rfl rfl rfl (by decide)

/-- C1: `GetTask` resolution.  Without a hyphen the ticket endpoint is never
contacted: the call is exactly the raw-ID lookup and its only request is the
raw-ID GET.  With a hyphen the first request is the by-ticket GET, and on any
failure of that attempt — HTTP error or unparsable body, both folded into
`ticketLookup`'s error — the call returns exactly the raw-ID lookup's result,
success or failure, after the two requests. -/
theorem getTask_resolution (net : Net) (s : String) :
    (containsHyphen s = false →
      Client.GetTask net s = Client.getTaskById net s ∧
      (Client.GetTask net s).2 = [⟨"GET", "/api/tasks/" ++ s, none⟩]) ∧
    (containsHyphen s = true →
      ((Client.GetTask net s).2.head? =
        some ⟨"GET", "/api/tasks/by-ticket/" ++ s, none⟩) ∧
      ∀ e, (Client.ticketLookup net s).1 = .error e →
        Client.GetTask net s =
          ((Client.getTaskById net s).1,
           ⟨"GET", "/api/tasks/by-ticket/" ++ s, none⟩ ::
             (Client.getTaskById net s).2)) := by
  constructor
  · intro hc
    have hg : Client.GetTask net s = Client.getTaskById net s := by
      simp [Client.GetTask, hc]
    exact ⟨hg, by rw [hg, getTaskById_trace]⟩
  · intro hc
    constructor
    · simp only [Client.GetTask, hc, if_true]
      rcases hq : Client.ticketLookup net s with ⟨q1, tr⟩
      have htr : tr = [⟨"GET", "/api/tasks/by-ticket/" ++ s, none⟩] := by
        have h2 := ticketLookup_trace net s
        rw [hq] at h2
        exact h2
      cases q1 <;> simp [htr]
    · intro e he
      simp only [Client.GetTask, hc, if_true, he]
      rw [ticketLookup_trace]
      simp

/-- Witness for C1: on `net404` the hyphenated `MNS-42` falls back to (and
returns exactly) the raw-ID lookup; on a hyphen-free identifier only the
raw-ID lookup runs. -/
theorem getTask_resolution_witness :
    Client.GetTask net404 "MNS-42" =
      ((Client.getTaskById net404 "MNS-42").1,
       ⟨"GET", "/api/tasks/by-ticket/MNS-42", none⟩ ::
         (Client.getTaskById net404 "MNS-42").2) ∧
    Client.GetTask netDead "plainid" = Client.getTaskById netDead "plainid" :=
  ⟨((getTask_resolution net404 "MNS-42").2 (by decide)).2
      "API error 404: not found" rfl,
   ((getTask_resolution netDead "plainid").1 (by decide)).1⟩

/-- C2: a successful `UpdateTask` consists of one resolution read (a
`GetTask`, itself one or two GETs), then exactly one PUT carrying the
marshalled params, then one confirmation read, in that order — and the value
returned is exactly the confirmation re-fetch's result, not the request
payload and not the PUT response's body (which is discarded). -/
theorem updateTask_flow (net : Net) (idOrTicket : String) (params : UpdateTaskParams)
    (h : ∃ t, (Client.UpdateTask net idOrTicket params).1 = .ok t) :
    ∃ task : Task,
      (Client.GetTask net idOrTicket).1 = .ok task ∧
      (Client.UpdateTask net idOrTicket params).1 = (Client.GetTask net task.ID).1 ∧
      (Client.UpdateTask net idOrTicket params).2 =
        (Client.GetTask net idOrTicket).2 ++
          ⟨"PUT", "/api/tasks/" ++ task.ID, some (marshalUpdateTaskParams params)⟩ ::
            (Client.GetTask net task.ID).2 ∧
      (∀ r ∈ (Client.GetTask net idOrTicket).2, r.method = "GET") ∧
      (∀ r ∈ (Client.GetTask net task.ID).2, r.method = "GET") := by
  obtain ⟨t0, ht0⟩ := h
  rcases hq : Client.GetTask net idOrTicket with ⟨q1, tr1⟩
  cases q1 with
  | error e =>
    have hU : Client.UpdateTask net idOrTicket params = (.error e, tr1) := by
      simp [Client.UpdateTask, hq]
    rw [hU] at ht0
    simp at ht0
  | ok task =>
    rcases hw : Client.request net "PUT" ("/api/tasks/" ++ task.ID)
        (some (marshalUpdateTaskParams params)) with ⟨w1, tr2⟩
    have htr2 : tr2 =
        [⟨"PUT", "/api/tasks/" ++ task.ID, some (marshalUpdateTaskParams params)⟩] := by
      have h2 := request_trace net "PUT" ("/api/tasks/" ++ task.ID)
        (some (marshalUpdateTaskParams params))
      rw [hw] at h2
      exact h2
    cases w1 with
    | error e =>
      have hU : Client.UpdateTask net idOrTicket params = (.error e, tr1 ++ tr2) := by
        simp [Client.UpdateTask, hq, hw]
      rw [hU] at ht0
      simp at ht0
    | ok data =>
      have hU : Client.UpdateTask net idOrTicket params =
          ((Client.GetTask net task.ID).1,
           tr1 ++ tr2 ++ (Client.GetTask net task.ID).2) := by
        simp [Client.UpdateTask, hq, hw]
      have hm1 := getTask_methods net idOrTicket
      rw [hq] at hm1
      refine ⟨task, rfl, by rw [hU], ?_, hm1, getTask_methods net task.ID⟩
      rw [hU, htr2]
      simp

/-- Witness for C2 on `netHappy`, updating task `abc` to status
`completed`. -/
theorem updateTask_flow_witness :
    ∃ task : Task,
      (Client.GetTask netHappy "abc").1 = .ok task ∧
      (Client.UpdateTask netHappy "abc" ⟨none, none, none, some "completed", none⟩).1 =
        (Client.GetTask netHappy task.ID).1 ∧
      (Client.UpdateTask netHappy "abc" ⟨none, none, none, some "completed", none⟩).2 =
        (Client.GetTask netHappy "abc").2 ++
          ⟨"PUT", "/api/tasks/" ++ task.ID,
           some (marshalUpdateTaskParams ⟨none, none, none, some "completed", none⟩)⟩ ::
            (Client.GetTask netHappy task.ID).2 ∧
      (∀ r ∈ (Client.GetTask netHappy "abc").2, r.method = "GET") ∧
      (∀ r ∈ (Client.GetTask netHappy task.ID).2, r.method = "GET") :=
  updateTask_flow netHappy "abc" ⟨none, none, none, some "completed", none⟩
    ⟨taskAbc, rfl⟩

/-- C7 counterexample: `AddComment` resolves `abc`, POSTs the comment, gets a
2xx response whose body `not json` fails to parse — and still returns success
(the nil map), because the decode error is dropped on client.go line 692.  The
trace confirms the POST was issued and answered. -/
theorem addComment_swallow_counterexample :
    (Client.AddComment netBadComment "abc" "hi").1 = .ok [] ∧
    netBadComment ⟨"POST", "/api/tasks/abc/comments",
      some (.obj [("text", .str "hi")])⟩ = .response 200 "not json" ∧
    parseJson "not json" = none ∧
    (Client.AddComment netBadComment "abc" "hi").2 =
      [⟨"GET", "/api/tasks/abc", none⟩,
       ⟨"POST", "/api/tasks/abc/comments", some (.obj [("text", .str "hi")])⟩] :=
  ⟨rfl, rfl, rfl, rfl⟩

/-- C7 (amended): every operation surfaces transport-level failures and
response bodies that fail to parse, at every stage.  One group of conjuncts
per operation: `ListBoards`, `ListTasks`, `ListUsers` and `CreateTask` each
surface a transport failure and an unparsable body of their one request;
`GetTask` surfaces both for its raw-ID request whenever the ticket attempt (if
one is made) did not fully succeed; `UpdateTask` propagates a resolution
failure, surfaces a transport failure of its PUT, and on a successful PUT
returns exactly the confirmation `GetTask` result, so any failure of that read
propagates too; `AddComment` propagates a resolution failure and surfaces a
transport failure and an HTTP-status failure of its POST — but its
comment-response parse failure is ignored: any 2xx POST response whose body
fails to parse yields success with the nil map. -/
theorem failures_surface :
    ((∀ (net : Net) (e : String),
        net ⟨"GET", "/api/boards", none⟩ = .transportError e →
        (Client.ListBoards net).1 = .error e) ∧
     (∀ (net : Net) (body : String),
        net ⟨"GET", "/api/boards", none⟩ = .response 200 body →
        parseJson body = none →
        (Client.ListBoards net).1 = .error "invalid JSON input")) ∧
    ((∀ (net : Net) (b s a e : String),
        net ⟨"GET", listTasksPath b s a, none⟩ = .transportError e →
        (Client.ListTasks net b s a).1 = .error e) ∧
     (∀ (net : Net) (b s a body : String),
        net ⟨"GET", listTasksPath b s a, none⟩ = .response 200 body →
        parseJson body = none →
        (Client.ListTasks net b s a).1 = .error "invalid JSON input")) ∧
    ((∀ (net : Net) (e : String),
        net ⟨"GET", "/api/users", none⟩ = .transportError e →
        (Client.ListUsers net).1 = .error e) ∧
     (∀ (net : Net) (body : String),
        net ⟨"GET", "/api/users", none⟩ = .response 200 body →
        parseJson body = none →
        (Client.ListUsers net).1 = .error "invalid JSON input")) ∧
    ((∀ (net : Net) (s e : String),
        (∀ t, (Client.ticketLookup net s).1 ≠ .ok t) →
        net ⟨"GET", "/api/tasks/" ++ s, none⟩ = .transportError e →
        (Client.GetTask net s).1 = .error e) ∧
     (∀ (net : Net) (s body : String),
        (∀ t, (Client.ticketLookup net s).1 ≠ .ok t) →
        net ⟨"GET", "/api/tasks/" ++ s, none⟩ = .response 200 body →
        parseJson body = none →
        (Client.GetTask net s).1 = .error "invalid JSON input")) ∧
    ((∀ (net : Net) (p : CreateTaskParams) (e : String),
        net ⟨"POST", "/api/tasks", some (marshalCreateTaskParams p)⟩ =
          .transportError e →
        (Client.CreateTask net p).1 = .error e) ∧
     (∀ (net : Net) (p : CreateTaskParams) (body : String),
        net ⟨"POST", "/api/tasks", some (marshalCreateTaskParams p)⟩ =
          .response 200 body →
        parseJson body = none →
        (Client.CreateTask net p).1 = .error "invalid JSON input")) ∧
    ((∀ (net : Net) (s : String) (params : UpdateTaskParams) (e : String),
        (Client.GetTask net s).1 = .error e →
        (Client.UpdateTask net s params).1 = .error e) ∧
     (∀ (net : Net) (s : String) (params : UpdateTaskParams) (task : Task) (e : String),
        (Client.GetTask net s).1 = .ok task →
        net ⟨"PUT", "/api/tasks/" ++ task.ID, some (marshalUpdateTaskParams params)⟩ =
          .transportError e →
        (Client.UpdateTask net s params).1 = .error e) ∧
     (∀ (net : Net) (s : String) (params : UpdateTaskParams) (task : Task) (data : String),
        (Client.GetTask net s).1 = .ok task →
        (Client.request net "PUT" ("/api/tasks/" ++ task.ID)
            (some (marshalUpdateTaskParams params))).1 = .ok data →
        (Client.UpdateTask net s params).1 = (Client.GetTask net task.ID).1)) ∧
    ((∀ (net : Net) (s text e : String),
        (Client.GetTask net s).1 = .error e →
        (Client.AddComment net s text).1 = .error e) ∧
     (∀ (net : Net) (s text e : String) (task : Task),
        (Client.GetTask net s).1 = .ok task →
        net ⟨"POST", "/api/tasks/" ++ task.ID ++ "/comments",
             some (.obj [("text", .str text)])⟩ = .transportError e →
        (Client.AddComment net s text).1 = .error e) ∧
     (∀ (net : Net) (s text : String) (task : Task) (status : Nat) (body : String),
        (Client.GetTask net s).1 = .ok task →
        net ⟨"POST", "/api/tasks/" ++ task.ID ++ "/comments",
             some (.obj [("text", .str text)])⟩ = .response status body →
        400 ≤ status →
        (Client.AddComment net s text).1 =
          .error ("API error " ++ toString status ++ ": " ++ body)) ∧
     (∀ (net : Net) (s text : String) (task : Task) (body : String),
        (Client.GetTask net s).1 = .ok task →
        net ⟨"POST", "/api/tasks/" ++ task.ID ++ "/comments",
             some (.obj [("text", .str text)])⟩ = .response 200 body →
        parseJson body = none →
        (Client.AddComment net s text).1 = .ok [])) := by
  refine ⟨⟨?_, ?_⟩, ⟨?_, ?_⟩, ⟨?_, ?_⟩, ⟨?_, ?_⟩, ⟨?_, ?_⟩, ⟨?_, ?_, ?_⟩,
    ⟨?_, ?_, ?_, ?_⟩⟩
  · intro net e hnet
    simp [Client.ListBoards, Client.request, hnet]
  · intro net body hnet hp
    simp [Client.ListBoards, Client.request, hnet, unmarshalBoards, hp]
  · intro net b s a e hnet
    simp [Client.ListTasks, Client.request, hnet]
  · intro net b s a body hnet hp
    simp [Client.ListTasks, Client.request, hnet, unmarshalTasks, hp]
  · intro net e hnet
    simp [Client.ListUsers, Client.request, hnet]
  · intro net body hnet hp
    simp [Client.ListUsers, Client.request, hnet, unmarshalUsers, hp]
  · intro net s e htk hnet
    by_cases hc : containsHyphen s
    · rcases hq : Client.ticketLookup net s with ⟨q1, tr⟩
      cases q1 with
      | ok t => exact absurd (by rw [hq]) (htk t)
      | error e2 =>
        simp [Client.GetTask, hc, hq, Client.getTaskById, Client.request, hnet]
    · simp [Client.GetTask, hc, Client.getTaskById, Client.request, hnet]
  · intro net s body htk hnet hp
    by_cases hc : containsHyphen s
    · rcases hq : Client.ticketLookup net s with ⟨q1, tr⟩
      cases q1 with
      | ok t => exact absurd (by rw [hq]) (htk t)
      | error e2 =>
        simp [Client.GetTask, hc, hq, Client.getTaskById, Client.request, hnet,
          unmarshalTask, hp]
    · simp [Client.GetTask, hc, Client.getTaskById, Client.request, hnet,
        unmarshalTask, hp]
  · intro net p e hnet
    simp [Client.CreateTask, Client.request, hnet]
  · intro net p body hnet hp
    simp [Client.CreateTask, Client.request, hnet, unmarshalTask, hp]
  · intro net s params e h
    simp [Client.UpdateTask, h]
  · intro net s params task e hres hnet
    simp [Client.UpdateTask, hres, Client.request, hnet]
  · intro net s params task data hres hw
    simp [Client.UpdateTask, hres, hw]
  · intro net s text e h
    simp [Client.AddComment, h]
  · intro net s text e task hres hnet
    simp [Client.AddComment, hres, Client.request, hnet]
  · intro net s text task status body hres hnet hs
    simp [Client.AddComment, hres, Client.request, hnet, hs]
  · intro net s text task body hres hnet hp
    simp [Client.AddComment, hres, Client.request, hnet, decodeCommentMap, hp]

/-- Witness for C7's amended theorem: concrete instances of a transport
failure on boards, a malformed boards body, a transport failure inside
`GetTask`, a PUT transport failure inside `UpdateTask`, and a transport
failure and an HTTP 500 on the comment POST. -/
theorem failures_surface_witness :
    (Client.ListBoards netDead).1 = .error "connection refused" ∧
    (Client.ListBoards netBadBoards).1 = .error "invalid JSON input" ∧
    (Client.GetTask netDead "plainid").1 = .error "connection refused" ∧
    (Client.UpdateTask netPutDead "abc" ⟨none, none, none, some "completed", none⟩).1 =
      .error "put refused" ∧
    (Client.AddComment netHappy "abc" "hi").1 = .error "no route" ∧
    (Client.AddComment netComment500 "abc" "hi").1 =
      .error ("API error " ++ toString 500 ++ ": " ++ "boom") := by
  obtain ⟨hLB, _hLT, _hLU, hGT, _hCT, hUT, hAC⟩ := failures_surface
  exact ⟨hLB.1 netDead "connection refused" rfl,
    hLB.2 netBadBoards "not json" rfl rfl,
    hGT.1 netDead "plainid" "connection refused"
      (fun t h => by simp [Client.ticketLookup, Client.request, netDead] at h) rfl,
    hUT.2.1 netPutDead "abc" ⟨none, none, none, some "completed", none⟩ taskAbc
      "put refused" rfl rfl,
    hAC.2.1 netHappy "abc" "hi" "no route" taskAbc rfl rfl,
    hAC.2.2.1 netComment500 "abc" "hi" taskAbc 500 "boom" rfl rfl (by decide)⟩

/-- Membership in the marshalled form of one optional string field. -/
theorem mem_optStr (o : Option String) (key k : String) (v : Json) :
    ((k, v) ∈ (o.map (fun s => (key, Json.str s))).toList) ↔
      (k = key ∧ ∃ s, o = some s ∧ v = Json.str s) := by
  cases o <;> simp [Prod.ext_iff]

/-- Membership in the marshalled form of one optional integer field. -/
theorem mem_optInt (o : Option Int) (key k : String) (v : Json) :
    ((k, v) ∈ (o.map (fun n => (key, Json.num n))).toList) ↔
      (k = key ∧ ∃ n, o = some n ∧ v = Json.num n) := by
  cases o <;> simp [Prod.ext_iff]

/-- C8: optional tool arguments that are missing or have the wrong JSON type
read as zero values and never fail; `list_tasks` always delegates with the
`getString` readings of its three filters, each filter is passed as a query
parameter exactly when non-empty; and the `update_task` PUT body contains
exactly the supplied optional fields. -/
theorem optional_args_model :
    (∀ (args : List (String × Json)) (k : String),
       lookupField args k = none →
       getString args k = "" ∧ getStringPtr args k = none ∧
       getInt args k = 0 ∧ getIntPtr args k = none) ∧
    (∀ (args : List (String × Json)) (k : String) (v : Json),
       lookupField args k = some v → (∀ s, v ≠ Json.str s) →
       getString args k = "" ∧ getStringPtr args k = none) ∧
    (∀ (args : List (String × Json)) (k : String) (v : Json),
       lookupField args k = some v → (∀ n, v ≠ Json.num n) →
       getInt args k = 0 ∧ getIntPtr args k = none) ∧
    (∀ (net : Net) (args : List (String × Json)),
       callTool net "list_tasks" args =
         ((Client.ListTasks net (getString args "board_id") (getString args "status")
             (getString args "assignee")).1.map ToolResult.tasks,
          (Client.ListTasks net (getString args "board_id") (getString args "status")
             (getString args "assignee")).2)) ∧
    (∀ (b s a x : String),
       (("boardId", x) ∈ listTasksParams b s a ↔ b ≠ "" ∧ x = b) ∧
       (("status", x) ∈ listTasksParams b s a ↔ s ≠ "" ∧ x = s) ∧
       (("assignee", x) ∈ listTasksParams b s a ↔ a ≠ "" ∧ x = a)) ∧
    (∀ (p : UpdateTaskParams) (k : String) (v : Json),
       (k, v) ∈ updateBodyFields p ↔
         ((k = "title" ∧ ∃ s, p.Title = some s ∧ v = Json.str s) ∨
          (k = "description" ∧ ∃ s, p.Description = some s ∧ v = Json.str s) ∨
          (k = "assignee" ∧ ∃ s, p.Assignee = some s ∧ v = Json.str s) ∨
          (k = "status" ∧ ∃ s, p.Status = some s ∧ v = Json.str s) ∨
          (k = "priority" ∧ ∃ n, p.Priority = some n ∧ v = Json.num n))) := by
  refine ⟨?_, ?_, ?_, ?_, ?_, ?_⟩
  · intro args k h
    simp [getString, getStringPtr, getInt, getIntPtr, h]
  · intro args k v h hv
    cases v with
    | str s => exact absurd rfl (hv s)
    | null => simp [getString, getStringPtr, h]
    | bool b => simp [getString, getStringPtr, h]
    | num n => simp [getString, getStringPtr, h]
    | arr a => simp [getString, getStringPtr, h]
    | obj o => simp [getString, getStringPtr, h]
  · intro args k v h hv
    cases v with
    | num n => exact absurd rfl (hv n)
    | null => simp [getInt, getIntPtr, h]
    | bool b => simp [getInt, getIntPtr, h]
    | str s => simp [getInt, getIntPtr, h]
    | arr a => simp [getInt, getIntPtr, h]
    | obj o => simp [getInt, getIntPtr, h]
  · intro net args
    rfl
  · intro b s a x
    refine ⟨?_, ?_, ?_⟩ <;>
      by_cases hb : b = "" <;> by_cases hs : s = "" <;> by_cases ha : a = "" <;>
        simp [listTasksParams, hb, hs, ha, Prod.ext_iff]
  · intro p k v
    simp only [updateBodyFields, List.mem_append, mem_optStr, mem_optInt, or_assoc]

/-- Witness for C8's hypothesis-bearing conjuncts at concrete arguments. -/
theorem optional_args_model_witness :
    (getString [] "x" = "" ∧ getStringPtr [] "x" = none ∧
      getInt [] "x" = 0 ∧ getIntPtr [] "x" = none) ∧
    (getString [("x", Json.num 3)] "x" = "" ∧
      getStringPtr [("x", Json.num 3)] "x" = none) ∧
    (getInt [("x", Json.str "y")] "x" = 0 ∧
      getIntPtr [("x", Json.str "y")] "x" = none) :=
  ⟨optional_args_model.1 [] "x" rfl,
   optional_args_model.2.1 [("x", Json.num 3)] "x" (Json.num 3) rfl
     (fun _ h => Json.noConfusion h),
   optional_args_model.2.2.1 [("x", Json.str "y")] "x" (Json.str "y") rfl
     (fun _ h => Json.noConfusion h)⟩

/-- C9: every `tools/list` request, wherever it occurs in the input stream and
whatever requests precede or follow it, is answered with exactly the fixed
seven-tool registry built once by `NewServer`; the dispatcher never mutates
the registry (its handlers only read it). -/
theorem toolsList_registry :
    (∀ (net : Net) (pre post : List String) (line : String) (req : Request),
       unmarshalRequest line = .ok req → req.method = "tools/list" →
       processLines net (pre ++ line :: post) =
         processLines net pre ++
           ⟨"2.0", req.id, some (.toolsList NewServer.tools), none⟩ ::
             processLines net post) ∧
    NewServer.tools = registeredTools ∧
    NewServer.tools.map Tool.Name =
      ["list_boards", "list_tasks", "get_task", "create_task", "update_task",
       "add_comment", "list_users"] ∧
    NewServer.tools.length = 7 := by
  refine ⟨?_, rfl, rfl, rfl⟩
  intro net pre post line req hline hm
  simp [processLines, processLine, hline, Server.Handle, hm, Server.handleToolsList]

/-- A concrete `tools/list` request line. -/
def toolsListLine : String :=
  "\x7b\"jsonrpc\":\"2.0\",\"id\":1,\"method\":\"tools/list\"\x7d"

/-- Witness for C9 at a concrete request line. -/
theorem toolsList_registry_witness :
    processLines netDead ([] ++ toolsListLine :: []) =
      processLines netDead [] ++
        ⟨"2.0", some (.num 1), some (.toolsList NewServer.tools), none⟩ ::
          processLines netDead [] :=
  toolsList_registry.1 netDead [] [] toolsListLine
    ⟨"2.0", some (.num 1), "tools/list", none⟩ rfl rfl

end ProjectboardMCP
